import Mathlib

/-!
Verification development for the AuDix_User server (src/server.js,
src/user_db_pg.js). The presence plane, the signaling plane and the
identity-store queries are embedded shallowly: WebSocket connections become
opaque numeric handles, JavaScript `Map`s become association lists, and the
JSON values a frame can carry become the `JVal` type. Every definition is
translated from the source file it names in its doc comment.
-/

/-- Connection handle: stands for a `ws` object identity in server.js. -/
abbrev ConnId := Nat

/-- Whitespace stripped by `String.prototype.trim` (the ASCII cases). -/
def isTrimChar (c : Char) : Bool :=
  decide (c = ' ' ∨ c = '\t' ∨ c = '\n' ∨ c = '\r')

/-- JS `String.prototype.trim`, written over the character list so that it
evaluates inside the kernel. -/
def jsTrim (s : String) : String :=
  String.mk (((s.data.dropWhile isTrimChar).reverse.dropWhile
    isTrimChar).reverse)

/-- JS `String.prototype.toUpperCase` on the ASCII alphabet. -/
def jsToUpper (s : String) : String := String.mk (s.data.map Char.toUpper)

/-- `normalizeFlatId` from user_db_pg.js: `String(x || "").trim().toUpperCase()`.
The embedding takes the field as a string (the wire sends strings); for a
string input `String(x || "")` is the string itself. -/
def normalizeFlatId (x : String) : String := jsToUpper (jsTrim x)

/-- JSON values as produced by `JSON.parse` for a frame field (arrays and
objects omitted: no modeled handler reads them structurally). -/
inductive JVal
  | null
  | bool (b : Bool)
  | num (q : ℚ)
  | str (s : String)
deriving DecidableEq

/-- JavaScript truthiness of a parsed JSON value (`!!v` and `if (v)`). -/
def jsTruthy : JVal → Bool
  | .null => false
  | .bool b => b
  | .num q => decide (q ≠ 0)
  | .str s => decide (s ≠ "")

/-- JS `Number()` on a string, for the fragment exercised here: the trimmed
empty string is 0, decimal digit strings parse, anything else is NaN
(`none`). -/
def strToNumber (s : String) : Option ℚ :=
  let t := jsTrim s
  if t = "" then some 0
  else if t.data.all Char.isDigit then
    some ((t.data.foldl (fun n c => 10 * n + (c.toNat - 48)) 0 : Nat) : ℚ)
  else none

/-- JS `Number()` on a parsed JSON value; `none` models NaN. -/
def jsToNumber : JVal → Option ℚ
  | .null => some 0
  | .bool b => some (if b then 1 else 0)
  | .num q => some q
  | .str s => strToNumber s

/-- `Number(v || 0)` as written in the broadcast:status handler of
server.js: a falsy field collapses to 0 before the numeric coercion. -/
def numberOrZero (v : JVal) : Option ℚ :=
  if jsTruthy v then jsToNumber v else some 0

section AssocMap

variable {κ : Type} {α : Type} [DecidableEq κ]

/-- `Map.get`: first binding of the key, if any. -/
def lookupA (k : κ) : List (κ × α) → Option α
  | [] => none
  | (k', v) :: rest => if k' = k then some v else lookupA k rest

/-- `Map.set`: replace the first binding of the key, or append a fresh one. -/
def insertA (k : κ) (v : α) : List (κ × α) → List (κ × α)
  | [] => [(k, v)]
  | (k', v') :: rest =>
      if k' = k then (k, v) :: rest else (k', v') :: insertA k v rest

/-- `Map.delete`: drop the bindings of the key. -/
def eraseA (k : κ) : List (κ × α) → List (κ × α)
  | [] => []
  | (k', v) :: rest =>
      if k' = k then eraseA k rest else (k', v) :: eraseA k rest

/-- In-place mutation of the value a `Map.get` returned: rewrite the first
binding of the key, leaving the map untouched when the key is absent. -/
def updateA (k : κ) (f : α → α) : List (κ × α) → List (κ × α)
  | [] => []
  | (k', v) :: rest =>
      if k' = k then (k', f v) :: rest else (k', v) :: updateA k f rest

theorem lookupA_updateA (k k' : κ) (f : α → α) (l : List (κ × α)) :
    lookupA k' (updateA k f l) =
      if k = k' then (lookupA k' l).map f else lookupA k' l := by
  induction l with
  | nil => by_cases h : k = k' <;> simp [updateA, lookupA, h]
  | cons hd tl ih =>
    obtain ⟨a, v⟩ := hd
    by_cases hak : a = k
    · subst hak
      by_cases hk : a = k' <;> simp [updateA, lookupA, hk]
    · by_cases hk' : a = k'
      · subst hk'
        have hkk : ¬ k = a := fun h => hak h.symm
        simp [updateA, lookupA, hak, hkk]
      · simp [updateA, lookupA, hak, hk', ih]

theorem lookupA_insertA (k k' : κ) (v : α) (l : List (κ × α)) :
    lookupA k' (insertA k v l) =
      if k = k' then some v else lookupA k' l := by
  induction l with
  | nil => by_cases h : k = k' <;> simp [insertA, lookupA, h]
  | cons hd tl ih =>
    obtain ⟨a, w⟩ := hd
    by_cases hak : a = k
    · subst hak
      by_cases hk : a = k' <;> simp [insertA, lookupA, hk]
    · by_cases hk' : a = k'
      · subst hk'
        have hkk : ¬ k = a := fun h => hak h.symm
        simp [insertA, lookupA, hak, hkk]
      · simp [insertA, lookupA, hak, hk', ih]

theorem lookupA_eraseA (k k' : κ) (l : List (κ × α)) :
    lookupA k' (eraseA k l) =
      if k = k' then none else lookupA k' l := by
  induction l with
  | nil => by_cases h : k = k' <;> simp [eraseA, lookupA, h]
  | cons hd tl ih =>
    obtain ⟨a, w⟩ := hd
    by_cases hak : a = k
    · subst hak
      by_cases hk : a = k'
      · subst hk
        simpa [eraseA, lookupA] using ih
      · simp [eraseA, lookupA, hk, ih]
    · by_cases hk' : a = k'
      · subst hk'
        have hkk : ¬ k = a := fun h => hak h.symm
        simp [eraseA, lookupA, hak, hkk]
      · simp [eraseA, lookupA, hak, hk', ih]

end AssocMap

/-- Presence role, `client.role` in server.js. -/
inductive Role
  | idle
  | broadcaster
  | listener
deriving DecidableEq

/-- `station.audio` of server.js; `micLevel : Option ℚ` with `none` = NaN. -/
structure Audio where
  micOn : Bool
  sysOn : Bool
  ptt : Bool
  speaking : Bool
  micLevel : Option ℚ
deriving DecidableEq

/-- A station registry entry of server.js (`live.stations` values). The
listener set is a duplicate-free list of connection handles. -/
structure Station where
  ip : String
  startedAt : Nat
  listeners : List ConnId
  audio : Audio
deriving DecidableEq

/-- A presence client record of server.js (`live.clients` values).
`flat_id = none` is the JS `null`; `some ""` can arise from `identify` with
a blank id and is falsy exactly like `null` in every guard. -/
structure PresenceClient where
  flat_id : Option String
  ip : String
  role : Role
  listeningTo : Option String
  connectedAt : Nat
deriving DecidableEq

/-- The in-memory presence state `live` of server.js. -/
structure LiveState where
  clients : List (ConnId × PresenceClient)
  stations : List (String × Station)
deriving DecidableEq

/-- JS truthiness of `client.flat_id`: `null` and `""` are both falsy, so the
guards compare the defaulted key against `""`. -/
def flatKey (c : PresenceClient) : String := c.flat_id.getD ""

/-- `st.listeners.delete(ws)` on a JS Set. -/
def eraseListener (ws : ConnId) (st : Station) : Station :=
  {st with listeners := st.listeners.filter (fun w => decide (w ≠ ws))}

/-- `st.listeners.add(ws)` on a JS Set: append only when absent. -/
def addListener (ws : ConnId) (st : Station) : Station :=
  {st with listeners :=
    if ws ∈ st.listeners then st.listeners else st.listeners ++ [ws]}

/-- The audio defaults installed by `broadcast:start` in server.js. -/
def defaultAudio : Audio := ⟨false, false, false, false, some 0⟩

/-- The reset applied to each listener by `broadcast:stop` and by the
broadcaster branch of the close handler in server.js. -/
def resetClient (c : PresenceClient) : PresenceClient :=
  {c with role := .idle, listeningTo := none}

/-- The `for (const sock of st.listeners)` reset loop of server.js. -/
def resetListeners (cl : List (ConnId × PresenceClient)) (socks : List ConnId) :
    List (ConnId × PresenceClient) :=
  socks.foldl (fun acc sock => updateA sock resetClient acc) cl

/-- `client.flat_id = normalizeFlatId(msg.flat_id)` in the identify handler. -/
def setFlatId (fid : String) (c0 : PresenceClient) : PresenceClient :=
  {c0 with flat_id := some (normalizeFlatId fid)}

/-- The mutations `broadcast:start` applies to the sender: role becomes
broadcaster; `listeningTo` was nulled first exactly when it was truthy
(`t0` is the defaulted previous listen target). -/
def toBroadcaster (t0 : String) (c0 : PresenceClient) : PresenceClient :=
  {c0 with role := .broadcaster,
           listeningTo := if t0 = "" then c0.listeningTo else none}

/-- `client.role = "idle"` alone, as `broadcast:stop` applies to the sender
(its `listeningTo` is NOT cleared there). -/
def toIdle (c0 : PresenceClient) : PresenceClient := {c0 with role := .idle}

/-- The mutations `listen:start` applies to the sender. -/
def toListener (target : String) (c0 : PresenceClient) : PresenceClient :=
  {c0 with role := .listener, listeningTo := some target}

/-- The `broadcast:status` audio update with its JS coercions: `!!` for the
booleans and `Number(msg.micLevel || 0)` for the level. -/
def setAudio (micOn sysOn ptt speaking micLevel : JVal) (st : Station) :
    Station :=
  {st with audio := ⟨jsTruthy micOn, jsTruthy sysOn, jsTruthy ptt,
                     jsTruthy speaking, numberOrZero micLevel⟩}

/-- Presence frames (server.js `ws.on("message")` discriminants). The
flat-id carrying fields are strings on the wire; `broadcast:status` fields
keep their raw JSON value because the handler coerces them. -/
inductive PFrame
  | identify (flat_id : String)
  | broadcastStart
  | broadcastStop
  | broadcastStatus (micOn sysOn ptt speaking micLevel : JVal)
  | listenStart (targetFlat : String)
  | listenStop
deriving DecidableEq

/-- Frames the server sends back (`safeSend` payloads of server.js). -/
inductive WireMsg
  | broadcastDenied (reason : String)
  | listenError (error : String)
  | listenOk (targetFlat : String)
  | listenerJoin (listenerId : String)
  | listenerLeave (listenerId : String)
  | hello (id : String)
deriving DecidableEq

/-- An observable side effect of a handler: a `safeSend` or a `ws.close`. -/
inductive SEffect
  | send (dst : ConnId) (m : WireMsg)
  | closeConn (dst : ConnId) (code : Nat)
deriving DecidableEq

/-- The presence message handler of server.js (lines 325-424), one frame at
a time. `now` stands for `Date.now()`. A connection without a client record
drops every frame (in JS the record exists while the socket is open). -/
def presenceMessage (s : LiveState) (ws : ConnId) (f : PFrame) (now : Nat) :
    LiveState × List SEffect :=
  match lookupA ws s.clients with
  | none => (s, [])
  | some c =>
    match f with
    | .identify fid =>
        (⟨updateA ws (setFlatId fid) s.clients, s.stations⟩, [])
    | .broadcastStart =>
        if flatKey c = "" then (s, [])
        else
          match lookupA (flatKey c) s.stations with
          | some _ => (s, [.send ws (.broadcastDenied "ALREADY_BROADCASTING")])
          | none =>
              let t0 := c.listeningTo.getD ""
              let stations1 :=
                if t0 = "" then s.stations
                else updateA t0 (eraseListener ws) s.stations
              let clients1 := updateA ws (toBroadcaster t0) s.clients
              let stations2 :=
                insertA (flatKey c) ⟨c.ip, now, [], defaultAudio⟩ stations1
              (⟨clients1, stations2⟩, [])
    | .broadcastStop =>
        if flatKey c = "" then (s, [])
        else
          match lookupA (flatKey c) s.stations with
          | some st =>
              let clients1 :=
                updateA ws toIdle (resetListeners s.clients st.listeners)
              (⟨clients1, eraseA (flatKey c) s.stations⟩, [])
          | none =>
              (⟨updateA ws toIdle s.clients, eraseA (flatKey c) s.stations⟩, [])
    | .broadcastStatus micOn sysOn ptt speaking micLevel =>
        if flatKey c = "" then (s, [])
        else
          match lookupA (flatKey c) s.stations with
          | none => (s, [])
          | some _ =>
              let stations1 := updateA (flatKey c)
                (setAudio micOn sysOn ptt speaking micLevel) s.stations
              (⟨s.clients, stations1⟩, [])
    | .listenStart tf =>
        let target := normalizeFlatId tf
        match lookupA target s.stations with
        | none => (s, [])
        | some _ =>
            if c.role = .broadcaster then (s, [])
            else
              let t0 := c.listeningTo.getD ""
              let stations1 :=
                if t0 ≠ "" ∧ t0 ≠ target then
                  updateA t0 (eraseListener ws) s.stations
                else s.stations
              let clients1 := updateA ws (toListener target) s.clients
              (⟨clients1, updateA target (addListener ws) stations1⟩, [])
    | .listenStop =>
        let t0 := c.listeningTo.getD ""
        let stations1 :=
          if t0 = "" then s.stations
          else updateA t0 (eraseListener ws) s.stations
        (⟨updateA ws resetClient s.clients, stations1⟩, [])

/-- The presence close handler of server.js (lines 426-450). -/
def presenceClose (s : LiveState) (ws : ConnId) : LiveState :=
  match lookupA ws s.clients with
  | none => s
  | some c =>
    let t0 := c.listeningTo.getD ""
    let stations1 :=
      if t0 = "" then s.stations
      else updateA t0 (eraseListener ws) s.stations
    if c.role = .broadcaster ∧ flatKey c ≠ "" then
      match lookupA (flatKey c) stations1 with
      | some st =>
          ⟨eraseA ws (resetListeners s.clients st.listeners),
           eraseA (flatKey c) stations1⟩
      | none =>
          ⟨eraseA ws s.clients, eraseA (flatKey c) stations1⟩
    else
      ⟨eraseA ws s.clients, stations1⟩

/-- The presence connection handler of server.js (lines 297-308): a fresh
idle client record keyed by the socket. -/
def presenceConnect (s : LiveState) (ws : ConnId) (ip : String) (now : Nat) :
    LiveState :=
  {s with clients := insertA ws ⟨none, ip, .idle, none, now⟩ s.clients}

/-- An external event on the presence plane. -/
inductive PEvent
  | connect (ws : ConnId) (ip : String) (now : Nat)
  | message (ws : ConnId) (f : PFrame) (now : Nat)
  | close (ws : ConnId)

/-- One presence event applied to the state (replies discarded). -/
def pstep (s : LiveState) : PEvent → LiveState
  | .connect ws ip now => presenceConnect s ws ip now
  | .message ws f now => (presenceMessage s ws f now).1
  | .close ws => presenceClose s ws

/-- The state at server boot: no clients, no stations. -/
def initLive : LiveState := ⟨[], []⟩

/-- Run a list of presence events from a state. -/
def runP (s : LiveState) (es : List PEvent) : LiveState := es.foldl pstep s

/-- States the presence plane can actually be in. -/
inductive Reachable : LiveState → Prop
  | init : Reachable initLive
  | step {s : LiveState} : Reachable s → ∀ e : PEvent, Reachable (pstep s e)

theorem reachable_runP_of (s : LiveState) (hs : Reachable s)
    (es : List PEvent) : Reachable (runP s es) := by
  induction es generalizing s with
  | nil => exact hs
  | cons e rest ih => exact ih (pstep s e) (hs.step e)

theorem reachable_runP (es : List PEvent) : Reachable (runP initLive es) :=
  reachable_runP_of initLive Reachable.init es

/-! ### Branch equations for the presence handlers -/

/-- The removal of `ws` from the set of the station it was listening to, as
both `broadcast:start` and the close handler perform it. -/
def stripSelf (s : LiveState) (ws : ConnId) (c : PresenceClient) :
    List (String × Station) :=
  if c.listeningTo.getD "" = "" then s.stations
  else updateA (c.listeningTo.getD "") (eraseListener ws) s.stations

/-- The station-set adjustment `listen:start` performs before joining: leave
the old target's set when the old target was truthy and differs from the
new one. -/
def retuneStations (s : LiveState) (ws : ConnId) (c : PresenceClient)
    (target : String) : List (String × Station) :=
  if c.listeningTo.getD "" ≠ "" ∧ c.listeningTo.getD "" ≠ target then
    updateA (c.listeningTo.getD "") (eraseListener ws) s.stations
  else s.stations

theorem pm_unknown (s : LiveState) (ws : ConnId) (f : PFrame) (now : Nat)
    (hlk : lookupA ws s.clients = none) :
    presenceMessage s ws f now = (s, []) := by
  simp [presenceMessage, hlk]

theorem pm_identify (s : LiveState) (ws : ConnId) (c : PresenceClient)
    (fid : String) (now : Nat) (hlk : lookupA ws s.clients = some c) :
    presenceMessage s ws (.identify fid) now =
      (⟨updateA ws (setFlatId fid) s.clients, s.stations⟩, []) := by
  simp [presenceMessage, hlk]

theorem pm_start_noflat (s : LiveState) (ws : ConnId) (c : PresenceClient)
    (now : Nat) (hlk : lookupA ws s.clients = some c)
    (hfk : flatKey c = "") :
    presenceMessage s ws .broadcastStart now = (s, []) := by
  simp [presenceMessage, hlk, hfk]

theorem pm_start_denied (s : LiveState) (ws : ConnId) (c : PresenceClient)
    (st0 : Station) (now : Nat) (hlk : lookupA ws s.clients = some c)
    (hfk : flatKey c ≠ "")
    (hst : lookupA (flatKey c) s.stations = some st0) :
    presenceMessage s ws .broadcastStart now =
      (s, [.send ws (.broadcastDenied "ALREADY_BROADCASTING")]) := by
  simp [presenceMessage, hlk, hfk, hst]

theorem pm_start_ok (s : LiveState) (ws : ConnId) (c : PresenceClient)
    (now : Nat) (hlk : lookupA ws s.clients = some c)
    (hfk : flatKey c ≠ "")
    (hst : lookupA (flatKey c) s.stations = none) :
    presenceMessage s ws .broadcastStart now =
      (⟨updateA ws (toBroadcaster (c.listeningTo.getD "")) s.clients,
        insertA (flatKey c) ⟨c.ip, now, [], defaultAudio⟩
          (stripSelf s ws c)⟩, []) := by
  simp [presenceMessage, hlk, hfk, hst, stripSelf]

theorem pm_stop_noflat (s : LiveState) (ws : ConnId) (c : PresenceClient)
    (now : Nat) (hlk : lookupA ws s.clients = some c)
    (hfk : flatKey c = "") :
    presenceMessage s ws .broadcastStop now = (s, []) := by
  simp [presenceMessage, hlk, hfk]

theorem pm_stop_some (s : LiveState) (ws : ConnId) (c : PresenceClient)
    (st : Station) (now : Nat) (hlk : lookupA ws s.clients = some c)
    (hfk : flatKey c ≠ "")
    (hst : lookupA (flatKey c) s.stations = some st) :
    presenceMessage s ws .broadcastStop now =
      (⟨updateA ws toIdle (resetListeners s.clients st.listeners),
        eraseA (flatKey c) s.stations⟩, []) := by
  simp [presenceMessage, hlk, hfk, hst]

theorem pm_stop_none (s : LiveState) (ws : ConnId) (c : PresenceClient)
    (now : Nat) (hlk : lookupA ws s.clients = some c)
    (hfk : flatKey c ≠ "")
    (hst : lookupA (flatKey c) s.stations = none) :
    presenceMessage s ws .broadcastStop now =
      (⟨updateA ws toIdle s.clients, eraseA (flatKey c) s.stations⟩, []) := by
  simp [presenceMessage, hlk, hfk, hst]

theorem pm_status_some (s : LiveState) (ws : ConnId) (c : PresenceClient)
    (st : Station) (micOn sysOn ptt speaking micLevel : JVal) (now : Nat)
    (hlk : lookupA ws s.clients = some c)
    (hfk : flatKey c ≠ "")
    (hst : lookupA (flatKey c) s.stations = some st) :
    presenceMessage s ws
        (.broadcastStatus micOn sysOn ptt speaking micLevel) now =
      (⟨s.clients, updateA (flatKey c)
          (setAudio micOn sysOn ptt speaking micLevel) s.stations⟩, []) := by
  simp [presenceMessage, hlk, hfk, hst]

theorem pm_status_skip (s : LiveState) (ws : ConnId) (c : PresenceClient)
    (micOn sysOn ptt speaking micLevel : JVal) (now : Nat)
    (hlk : lookupA ws s.clients = some c)
    (h : flatKey c = "" ∨ lookupA (flatKey c) s.stations = none) :
    presenceMessage s ws
        (.broadcastStatus micOn sysOn ptt speaking micLevel) now = (s, []) := by
  rcases h with h | h
  · simp [presenceMessage, hlk, h]
  · by_cases hfk : flatKey c = "" <;> simp [presenceMessage, hlk, hfk, h]

theorem pm_listen_start_absent (s : LiveState) (ws : ConnId)
    (c : PresenceClient) (tf : String) (now : Nat)
    (hlk : lookupA ws s.clients = some c)
    (hst : lookupA (normalizeFlatId tf) s.stations = none) :
    presenceMessage s ws (.listenStart tf) now = (s, []) := by
  simp [presenceMessage, hlk, hst]

theorem pm_listen_start_bcast (s : LiveState) (ws : ConnId)
    (c : PresenceClient) (stT : Station) (tf : String) (now : Nat)
    (hlk : lookupA ws s.clients = some c)
    (hst : lookupA (normalizeFlatId tf) s.stations = some stT)
    (hrole : c.role = .broadcaster) :
    presenceMessage s ws (.listenStart tf) now = (s, []) := by
  simp [presenceMessage, hlk, hst, hrole]

theorem pm_listen_start_ok (s : LiveState) (ws : ConnId)
    (c : PresenceClient) (stT : Station) (tf : String) (now : Nat)
    (hlk : lookupA ws s.clients = some c)
    (hst : lookupA (normalizeFlatId tf) s.stations = some stT)
    (hrole : c.role ≠ .broadcaster) :
    presenceMessage s ws (.listenStart tf) now =
      (⟨updateA ws (toListener (normalizeFlatId tf)) s.clients,
        updateA (normalizeFlatId tf) (addListener ws)
          (retuneStations s ws c (normalizeFlatId tf))⟩, []) := by
  simp [presenceMessage, hlk, hst, hrole, retuneStations]

theorem pm_listen_stop (s : LiveState) (ws : ConnId) (c : PresenceClient)
    (now : Nat) (hlk : lookupA ws s.clients = some c) :
    presenceMessage s ws .listenStop now =
      (⟨updateA ws resetClient s.clients, stripSelf s ws c⟩, []) := by
  simp [presenceMessage, hlk, stripSelf]

theorem pc_unknown (s : LiveState) (ws : ConnId)
    (hlk : lookupA ws s.clients = none) : presenceClose s ws = s := by
  simp [presenceClose, hlk]

theorem pc_plain (s : LiveState) (ws : ConnId) (c : PresenceClient)
    (hlk : lookupA ws s.clients = some c)
    (h : ¬(c.role = .broadcaster ∧ flatKey c ≠ "")) :
    presenceClose s ws = ⟨eraseA ws s.clients, stripSelf s ws c⟩ := by
  simp only [presenceClose, hlk, stripSelf]
  split <;> simp_all

theorem pc_bcast_some (s : LiveState) (ws : ConnId) (c : PresenceClient)
    (st : Station) (hlk : lookupA ws s.clients = some c)
    (hrole : c.role = .broadcaster) (hfk : flatKey c ≠ "")
    (hst : lookupA (flatKey c) (stripSelf s ws c) = some st) :
    presenceClose s ws =
      ⟨eraseA ws (resetListeners s.clients st.listeners),
       eraseA (flatKey c) (stripSelf s ws c)⟩ := by
  simp only [presenceClose, hlk, stripSelf] at *
  split <;> simp_all

theorem pc_bcast_none (s : LiveState) (ws : ConnId) (c : PresenceClient)
    (hlk : lookupA ws s.clients = some c)
    (hrole : c.role = .broadcaster) (hfk : flatKey c ≠ "")
    (hst : lookupA (flatKey c) (stripSelf s ws c) = none) :
    presenceClose s ws =
      ⟨eraseA ws s.clients, eraseA (flatKey c) (stripSelf s ws c)⟩ := by
  simp only [presenceClose, hlk, stripSelf] at *
  split <;> simp_all

/-! ### The listen-consistency invariant of the presence plane -/

/-- Every client truthily listening to `t` is a member of the listener set
of an existing station `t`. This is the membership half of spec invariant 3,
and the code does maintain it (the role half fails, see the broadcast:stop
counterexample). -/
def listenConsistent (s : LiveState) : Prop :=
  ∀ ws c, lookupA ws s.clients = some c →
    ∀ t, c.listeningTo = some t → t ≠ "" →
      ∃ st, lookupA t s.stations = some st ∧ ws ∈ st.listeners

theorem mem_eraseListener {ws w : ConnId} {st : Station} (hne : w ≠ ws)
    (h : w ∈ st.listeners) : w ∈ (eraseListener ws st).listeners := by
  simp [eraseListener, List.mem_filter, h, hne]

theorem mem_addListener_of {ws w : ConnId} {st : Station}
    (h : w ∈ st.listeners) : w ∈ (addListener ws st).listeners := by
  simp only [addListener]
  split
  · exact h
  · exact List.mem_append_left _ h

theorem self_mem_addListener (ws : ConnId) (st : Station) :
    ws ∈ (addListener ws st).listeners := by
  simp only [addListener]
  split
  · assumption
  · exact List.mem_append_right _ (List.mem_singleton_self ws)

theorem lookupA_resetListeners (cl : List (ConnId × PresenceClient))
    (socks : List ConnId) (w : ConnId) :
    lookupA w (resetListeners cl socks) =
      if w ∈ socks then (lookupA w cl).map resetClient
      else lookupA w cl := by
  induction socks generalizing cl with
  | nil => simp [resetListeners]
  | cons sock rest ih =>
    have hstep : resetListeners cl (sock :: rest) =
        resetListeners (updateA sock resetClient cl) rest := rfl
    rw [hstep, ih, lookupA_updateA]
    by_cases hsw : sock = w
    · have hm : w ∈ sock :: rest := by
        rw [hsw]
        exact List.mem_cons_self w rest
      rw [if_pos hsw, if_pos hm]
      by_cases hmem : w ∈ rest
      · rw [if_pos hmem]
        cases h : lookupA w cl <;> simp [resetClient]
      · rw [if_neg hmem]
    · rw [if_neg hsw]
      by_cases hmem : w ∈ rest
      · have hm : w ∈ sock :: rest := List.mem_cons_of_mem _ hmem
        rw [if_pos hmem, if_pos hm]
      · have hm : w ∉ sock :: rest := by
          intro h
          rcases List.mem_cons.mp h with h1 | h1
          · exact hsw h1.symm
          · exact hmem h1
        rw [if_neg hmem, if_neg hm]

theorem lc_identify (s : LiveState) (hs : listenConsistent s) (ws : ConnId)
    (fid : String) (now : Nat) :
    listenConsistent (presenceMessage s ws (.identify fid) now).1 := by
  cases hlk : lookupA ws s.clients with
  | none => simpa [pm_unknown s ws _ now hlk] using hs
  | some c =>
    intro w cw hw t ht htne
    simp only [pm_identify s ws c fid now hlk] at hw ⊢
    rw [lookupA_updateA] at hw
    by_cases hww : ws = w
    · subst hww
      rw [if_pos rfl, hlk] at hw
      obtain rfl : setFlatId fid c = cw := by simpa using hw
      have hlt : c.listeningTo = some t := by simpa [setFlatId] using ht
      exact hs ws c hlk t hlt htne
    · rw [if_neg hww] at hw
      exact hs w cw hw t ht htne

theorem lc_broadcastStart (s : LiveState) (hs : listenConsistent s)
    (ws : ConnId) (now : Nat) :
    listenConsistent (presenceMessage s ws .broadcastStart now).1 := by
  cases hlk : lookupA ws s.clients with
  | none => simpa [pm_unknown s ws _ now hlk] using hs
  | some c =>
    by_cases hfk : flatKey c = ""
    · simpa [pm_start_noflat s ws c now hlk hfk] using hs
    · cases hst : lookupA (flatKey c) s.stations with
      | some st0 => simpa [pm_start_denied s ws c st0 now hlk hfk hst] using hs
      | none =>
        intro w cw hw t ht htne
        simp only [pm_start_ok s ws c now hlk hfk hst] at hw ⊢
        rw [lookupA_updateA] at hw
        by_cases hww : ws = w
        · subst hww
          rw [if_pos rfl, hlk] at hw
          obtain rfl : toBroadcaster (c.listeningTo.getD "") c = cw := by
            simpa using hw
          by_cases ht0 : c.listeningTo.getD "" = ""
          · have hlt : c.listeningTo = some t := by
              simpa [toBroadcaster, ht0] using ht
            rw [hlt] at ht0
            exact absurd ht0 htne
          · simp [toBroadcaster, ht0] at ht
        · rw [if_neg hww] at hw
          obtain ⟨st', hst', hmem⟩ := hs w cw hw t ht htne
          have htfk : flatKey c ≠ t := by
            intro h
            rw [h] at hst
            rw [hst] at hst'
            exact absurd hst' (by simp)
          rw [lookupA_insertA, if_neg htfk]
          unfold stripSelf
          by_cases ht0 : c.listeningTo.getD "" = ""
          · rw [if_pos ht0]
            exact ⟨st', hst', hmem⟩
          · rw [if_neg ht0, lookupA_updateA]
            by_cases ht0t : c.listeningTo.getD "" = t
            · rw [if_pos ht0t, hst']
              exact ⟨eraseListener ws st', rfl,
                mem_eraseListener (fun h => hww h.symm) hmem⟩
            · rw [if_neg ht0t]
              exact ⟨st', hst', hmem⟩

theorem lc_broadcastStop (s : LiveState) (hs : listenConsistent s)
    (ws : ConnId) (now : Nat) :
    listenConsistent (presenceMessage s ws .broadcastStop now).1 := by
  cases hlk : lookupA ws s.clients with
  | none => simpa [pm_unknown s ws _ now hlk] using hs
  | some c =>
    by_cases hfk : flatKey c = ""
    · simpa [pm_stop_noflat s ws c now hlk hfk] using hs
    · cases hst : lookupA (flatKey c) s.stations with
      | some st =>
        intro w cw hw t ht htne
        simp only [pm_stop_some s ws c st now hlk hfk hst] at hw ⊢
        rw [lookupA_updateA, lookupA_resetListeners] at hw
        have main : ∀ cw0, lookupA w s.clients = some cw0 →
            cw0.listeningTo = some t → w ∉ st.listeners →
            ∃ st2, lookupA t (eraseA (flatKey c) s.stations) = some st2 ∧
              w ∈ st2.listeners := by
          intro cw0 hw0 hlt0 hnmem
          obtain ⟨st', hst', hmem⟩ := hs w cw0 hw0 t hlt0 htne
          have htfk : flatKey c ≠ t := by
            intro h
            rw [h] at hst
            rw [hst] at hst'
            obtain rfl : st = st' := by simpa using hst'
            exact hnmem hmem
          rw [lookupA_eraseA, if_neg htfk]
          exact ⟨st', hst', hmem⟩
        by_cases hww : ws = w
        · subst hww
          rw [if_pos rfl] at hw
          by_cases hmem : ws ∈ st.listeners
          · rw [if_pos hmem, hlk] at hw
            obtain rfl : toIdle (resetClient c) = cw := by simpa using hw
            simp [toIdle, resetClient] at ht
          · rw [if_neg hmem, hlk] at hw
            obtain rfl : toIdle c = cw := by simpa using hw
            have hlt : c.listeningTo = some t := by simpa [toIdle] using ht
            exact main c hlk hlt hmem
        · rw [if_neg hww] at hw
          by_cases hmem : w ∈ st.listeners
          · rw [if_pos hmem] at hw
            cases hlc : lookupA w s.clients with
            | none => rw [hlc] at hw; exact absurd hw (by simp)
            | some a =>
              rw [hlc] at hw
              obtain rfl : resetClient a = cw := by simpa using hw
              simp [resetClient] at ht
          · rw [if_neg hmem] at hw
            exact main cw hw ht hmem
      | none =>
        intro w cw hw t ht htne
        simp only [pm_stop_none s ws c now hlk hfk hst] at hw ⊢
        rw [lookupA_updateA] at hw
        have main : ∀ cw0, lookupA w s.clients = some cw0 →
            cw0.listeningTo = some t →
            ∃ st2, lookupA t (eraseA (flatKey c) s.stations) = some st2 ∧
              w ∈ st2.listeners := by
          intro cw0 hw0 hlt0
          obtain ⟨st', hst', hmem⟩ := hs w cw0 hw0 t hlt0 htne
          have htfk : flatKey c ≠ t := by
            intro h
            rw [h] at hst
            rw [hst] at hst'
            exact absurd hst' (by simp)
          rw [lookupA_eraseA, if_neg htfk]
          exact ⟨st', hst', hmem⟩
        by_cases hww : ws = w
        · subst hww
          rw [if_pos rfl, hlk] at hw
          obtain rfl : toIdle c = cw := by simpa using hw
          have hlt : c.listeningTo = some t := by simpa [toIdle] using ht
          exact main c hlk hlt
        · rw [if_neg hww] at hw
          exact main cw hw ht

theorem lc_broadcastStatus (s : LiveState) (hs : listenConsistent s)
    (ws : ConnId) (micOn sysOn ptt speaking micLevel : JVal) (now : Nat) :
    listenConsistent (presenceMessage s ws
      (.broadcastStatus micOn sysOn ptt speaking micLevel) now).1 := by
  cases hlk : lookupA ws s.clients with
  | none => simpa [pm_unknown s ws _ now hlk] using hs
  | some c =>
    by_cases hfk : flatKey c = ""
    · simpa [pm_status_skip s ws c micOn sysOn ptt speaking micLevel now hlk
        (Or.inl hfk)] using hs
    · cases hst : lookupA (flatKey c) s.stations with
      | none =>
        simpa [pm_status_skip s ws c micOn sysOn ptt speaking micLevel now hlk
          (Or.inr hst)] using hs
      | some st =>
        intro w cw hw t ht htne
        simp only [pm_status_some s ws c st micOn sysOn ptt speaking micLevel
          now hlk hfk hst] at hw ⊢
        obtain ⟨st', hst', hmem⟩ := hs w cw hw t ht htne
        rw [lookupA_updateA]
        by_cases hfkt : flatKey c = t
        · rw [if_pos hfkt, hst']
          exact ⟨setAudio micOn sysOn ptt speaking micLevel st', rfl,
            by simpa [setAudio] using hmem⟩
        · rw [if_neg hfkt]
          exact ⟨st', hst', hmem⟩

theorem lc_listenStart (s : LiveState) (hs : listenConsistent s)
    (ws : ConnId) (tf : String) (now : Nat) :
    listenConsistent (presenceMessage s ws (.listenStart tf) now).1 := by
  cases hlk : lookupA ws s.clients with
  | none => simpa [pm_unknown s ws _ now hlk] using hs
  | some c =>
    cases hst : lookupA (normalizeFlatId tf) s.stations with
    | none => simpa [pm_listen_start_absent s ws c tf now hlk hst] using hs
    | some stT =>
      by_cases hrole : c.role = .broadcaster
      · simpa [pm_listen_start_bcast s ws c stT tf now hlk hst hrole] using hs
      · intro w cw hw t ht htne
        simp only [pm_listen_start_ok s ws c stT tf now hlk hst hrole]
          at hw ⊢
        have hretune : lookupA (normalizeFlatId tf)
            (retuneStations s ws c (normalizeFlatId tf)) = some stT := by
          unfold retuneStations
          split
          · next hcond =>
              rw [lookupA_updateA, if_neg hcond.2, hst]
          · exact hst
        rw [lookupA_updateA] at hw
        by_cases hww : ws = w
        · subst hww
          rw [if_pos rfl, hlk] at hw
          obtain rfl : toListener (normalizeFlatId tf) c = cw := by
            simpa using hw
          have htt : t = normalizeFlatId tf := by
            have : some (normalizeFlatId tf) = some t := by
              simpa [toListener] using ht
            simpa using this.symm
          subst htt
          rw [lookupA_updateA, if_pos rfl, hretune]
          exact ⟨addListener ws stT, rfl, self_mem_addListener ws stT⟩
        · rw [if_neg hww] at hw
          obtain ⟨st', hst', hmem⟩ := hs w cw hw t ht htne
          rw [lookupA_updateA]
          by_cases htt : normalizeFlatId tf = t
          · rw [if_pos htt]
            subst htt
            rw [hretune]
            obtain rfl : stT = st' := by
              rw [hst] at hst'
              simpa using hst'
            exact ⟨addListener ws stT, rfl, mem_addListener_of hmem⟩
          · rw [if_neg htt]
            unfold retuneStations
            split
            · next hcond =>
                rw [lookupA_updateA]
                by_cases ht0t : c.listeningTo.getD "" = t
                · rw [if_pos ht0t, hst']
                  exact ⟨eraseListener ws st', rfl,
                    mem_eraseListener (fun h => hww h.symm) hmem⟩
                · rw [if_neg ht0t]
                  exact ⟨st', hst', hmem⟩
            · exact ⟨st', hst', hmem⟩

theorem lc_listenStop (s : LiveState) (hs : listenConsistent s)
    (ws : ConnId) (now : Nat) :
    listenConsistent (presenceMessage s ws .listenStop now).1 := by
  cases hlk : lookupA ws s.clients with
  | none => simpa [pm_unknown s ws _ now hlk] using hs
  | some c =>
    intro w cw hw t ht htne
    simp only [pm_listen_stop s ws c now hlk] at hw ⊢
    rw [lookupA_updateA] at hw
    by_cases hww : ws = w
    · subst hww
      rw [if_pos rfl, hlk] at hw
      obtain rfl : resetClient c = cw := by simpa using hw
      simp [resetClient] at ht
    · rw [if_neg hww] at hw
      obtain ⟨st', hst', hmem⟩ := hs w cw hw t ht htne
      unfold stripSelf
      split
      · exact ⟨st', hst', hmem⟩
      · rw [lookupA_updateA]
        by_cases ht0t : c.listeningTo.getD "" = t
        · rw [if_pos ht0t, hst']
          exact ⟨eraseListener ws st', rfl,
            mem_eraseListener (fun h => hww h.symm) hmem⟩
        · rw [if_neg ht0t]
          exact ⟨st', hst', hmem⟩

theorem lc_connect (s : LiveState) (hs : listenConsistent s) (ws : ConnId)
    (ip : String) (now : Nat) :
    listenConsistent (presenceConnect s ws ip now) := by
  intro w cw hw t ht htne
  simp only [presenceConnect] at hw ⊢
  rw [lookupA_insertA] at hw
  by_cases hww : ws = w
  · rw [if_pos hww] at hw
    obtain rfl : (⟨none, ip, .idle, none, now⟩ : PresenceClient) = cw := by
      simpa using hw
    exact absurd ht (by simp)
  · rw [if_neg hww] at hw
    exact hs w cw hw t ht htne

/-- In `stripSelf` every station keeps all members other than `ws` and no
station key appears or disappears. -/
theorem lookupA_stripSelf_of_mem (s : LiveState) (ws w : ConnId)
    (c : PresenceClient) (t : String) (st' : Station) (hww : w ≠ ws)
    (hst' : lookupA t s.stations = some st') (hmem : w ∈ st'.listeners) :
    ∃ st2, lookupA t (stripSelf s ws c) = some st2 ∧ w ∈ st2.listeners := by
  unfold stripSelf
  split
  · exact ⟨st', hst', hmem⟩
  · rw [lookupA_updateA]
    by_cases ht0t : c.listeningTo.getD "" = t
    · rw [if_pos ht0t, hst']
      exact ⟨eraseListener ws st', rfl, mem_eraseListener hww hmem⟩
    · rw [if_neg ht0t]
      exact ⟨st', hst', hmem⟩

theorem lc_close (s : LiveState) (hs : listenConsistent s) (ws : ConnId) :
    listenConsistent (presenceClose s ws) := by
  cases hlk : lookupA ws s.clients with
  | none => simpa [pc_unknown s ws hlk] using hs
  | some c =>
    by_cases hb : c.role = .broadcaster ∧ flatKey c ≠ ""
    · cases hstb : lookupA (flatKey c) (stripSelf s ws c) with
      | some st =>
        intro w cw hw t ht htne
        simp only [pc_bcast_some s ws c st hlk hb.1 hb.2 hstb] at hw ⊢
        rw [lookupA_eraseA] at hw
        by_cases hww : ws = w
        · rw [if_pos hww] at hw
          exact absurd hw (by simp)
        · rw [if_neg hww] at hw
          rw [lookupA_resetListeners] at hw
          by_cases hmem : w ∈ st.listeners
          · rw [if_pos hmem] at hw
            cases hlc : lookupA w s.clients with
            | none => rw [hlc] at hw; exact absurd hw (by simp)
            | some a =>
              rw [hlc] at hw
              obtain rfl : resetClient a = cw := by simpa using hw
              simp [resetClient] at ht
          · rw [if_neg hmem] at hw
            obtain ⟨st', hst', hmemo⟩ := hs w cw hw t ht htne
            obtain ⟨st2, hst2, hmem2⟩ :=
              lookupA_stripSelf_of_mem s ws w c t st'
                (fun h => hww h.symm) hst' hmemo
            have htfk : flatKey c ≠ t := by
              intro h
              rw [h] at hstb
              rw [hstb] at hst2
              obtain rfl : st = st2 := by simpa using hst2
              exact hmem hmem2
            rw [lookupA_eraseA, if_neg htfk]
            exact ⟨st2, hst2, hmem2⟩
      | none =>
        intro w cw hw t ht htne
        simp only [pc_bcast_none s ws c hlk hb.1 hb.2 hstb] at hw ⊢
        rw [lookupA_eraseA] at hw
        by_cases hww : ws = w
        · rw [if_pos hww] at hw
          exact absurd hw (by simp)
        · rw [if_neg hww] at hw
          obtain ⟨st', hst', hmemo⟩ := hs w cw hw t ht htne
          obtain ⟨st2, hst2, hmem2⟩ :=
            lookupA_stripSelf_of_mem s ws w c t st'
              (fun h => hww h.symm) hst' hmemo
          have htfk : flatKey c ≠ t := by
            intro h
            rw [h] at hstb
            rw [hstb] at hst2
            exact absurd hst2 (by simp)
          rw [lookupA_eraseA, if_neg htfk]
          exact ⟨st2, hst2, hmem2⟩
    · intro w cw hw t ht htne
      simp only [pc_plain s ws c hlk hb] at hw ⊢
      rw [lookupA_eraseA] at hw
      by_cases hww : ws = w
      · rw [if_pos hww] at hw
        exact absurd hw (by simp)
      · rw [if_neg hww] at hw
        obtain ⟨st', hst', hmemo⟩ := hs w cw hw t ht htne
        exact lookupA_stripSelf_of_mem s ws w c t st'
          (fun h => hww h.symm) hst' hmemo

theorem lc_step (s : LiveState) (hs : listenConsistent s) (e : PEvent) :
    listenConsistent (pstep s e) := by
  cases e with
  | connect ws ip now => exact lc_connect s hs ws ip now
  | close ws => exact lc_close s hs ws
  | message ws f now =>
    cases f with
    | identify fid => exact lc_identify s hs ws fid now
    | broadcastStart => exact lc_broadcastStart s hs ws now
    | broadcastStop => exact lc_broadcastStop s hs ws now
    | broadcastStatus a b c d e => exact lc_broadcastStatus s hs ws a b c d e now
    | listenStart tf => exact lc_listenStart s hs ws tf now
    | listenStop => exact lc_listenStop s hs ws now

/-- Every reachable presence state satisfies the membership invariant. -/
theorem reachable_listenConsistent {s : LiveState} (h : Reachable s) :
    listenConsistent s := by
  induction h with
  | init => intro w cw hw; simp [initLive, lookupA] at hw
  | step _ e ih => exact lc_step _ ih e

/-! ### Claim C1: duplicate broadcast:start is denied without state change -/

/-- C1: for every presence client with a truthy (non-null) flat_id, if a
station entry already exists for that flat_id, processing `broadcast:start`
sends `{type:"broadcast:denied", reason:"ALREADY_BROADCASTING"}` to that
client and returns the state unchanged: the station registry, the existing
station and every client record (roles and listening_to included) are
exactly what they were. -/
theorem broadcast_start_denied_no_change
    (s : LiveState) (ws : ConnId) (c : PresenceClient) (F : String)
    (st0 : Station) (now : Nat)
    (hc : lookupA ws s.clients = some c)
    (hf : c.flat_id = some F) (hne : F ≠ "")
    (hst : lookupA F s.stations = some st0) :
    presenceMessage s ws .broadcastStart now =
      (s, [.send ws (.broadcastDenied "ALREADY_BROADCASTING")]) := by
  have hfk : flatKey c = F := by simp [flatKey, hf]
  refine pm_start_denied s ws c st0 now hc ?_ ?_
  · rw [hfk]
    exact hne
  · rw [hfk]
    exact hst

/-- The events behind the C1 witness: one flat goes live, a second
connection identifies as the same flat. -/
def exC1Events : List PEvent :=
  [.connect 0 "ip0" 1, .message 0 (.identify "f1") 1,
   .message 0 .broadcastStart 2, .connect 1 "ip1" 3,
   .message 1 (.identify "f1") 3]

def exC1 : LiveState := runP initLive exC1Events

theorem broadcast_start_denied_no_change_witness :
    presenceMessage exC1 1 .broadcastStart 4 =
      (exC1, [.send 1 (.broadcastDenied "ALREADY_BROADCASTING")]) := by
  exact broadcast_start_denied_no_change exC1 1
    ⟨some "F1", "ip1", .idle, none, 3⟩ "F1" ⟨"ip0", 2, [], defaultAudio⟩ 4
    (by decide) rfl (by decide) (by decide)

/-! ### Claim C2: role=idle with listening_to still set is reachable -/

/-- The events behind the C2 counterexample: connection 0 broadcasts as G1;
connection 1 identifies as H2, listens to G1, then sends `broadcast:stop`. -/
def exC2Events : List PEvent :=
  [.connect 0 "ip0" 1, .message 0 (.identify "g1") 1,
   .message 0 .broadcastStart 2, .connect 1 "ip1" 3,
   .message 1 (.identify "h2") 3, .message 1 (.listenStart "g1") 4,
   .message 1 .broadcastStop 5]

def exC2 : LiveState := runP initLive exC2Events

/-- C2 fails on the code: the broadcast:stop handler neither checks that the
sender is a broadcaster nor clears its `listeningTo`, so a listening client
that sends `broadcast:stop` reaches a state with role=idle while its
listening_to is still set ("G1" here), violating the spec invariant that
listening_to is non-null only for role=listener. -/
theorem broadcast_stop_leaves_dangling_listen :
    Reachable exC2 ∧
      (lookupA 1 exC2.clients).map (fun c => (c.role, c.listeningTo)) =
        some (Role.idle, some "G1") :=
  ⟨reachable_runP exC2Events, by decide⟩

/-! ### Claim C3: broadcaster disconnect cleans the station and listeners -/

/-- Looking up a station after `stripSelf` of some client: the entry
survives, keeps every member other than `ws`, and gains none. -/
theorem stripSelf_lookup_some (s : LiveState) (ws : ConnId)
    (c : PresenceClient) (F : String) (st0 : Station)
    (hst0 : lookupA F s.stations = some st0) :
    ∃ st, lookupA F (stripSelf s ws c) = some st ∧
      st.listeners ⊆ st0.listeners ∧
      ∀ sock ∈ st0.listeners, sock ≠ ws → sock ∈ st.listeners := by
  unfold stripSelf
  split
  · exact ⟨st0, hst0, fun a h => h, fun sock h _ => h⟩
  · rw [lookupA_updateA]
    by_cases ht0 : c.listeningTo.getD "" = F
    · rw [if_pos ht0, hst0]
      refine ⟨eraseListener ws st0, rfl, ?_, ?_⟩
      · intro a ha
        simp [eraseListener, List.mem_filter] at ha
        exact ha.1
      · intro sock hsk hne
        exact mem_eraseListener hne hsk
    · rw [if_neg ht0]
      exact ⟨st0, hst0, fun a h => h, fun sock h _ => h⟩

/-- C3: in every reachable state, when a presence connection whose client
has role=broadcaster and a truthy flat_id F closes, the station keyed by F
is gone from the registry, every member of its listener set that survives
as a client ends with role=idle and listening_to=null, and no surviving
client's listening_to references F. -/
theorem broadcaster_close_cleanup
    (s : LiveState) (hreach : Reachable s) (ws : ConnId)
    (c : PresenceClient) (F : String)
    (hc : lookupA ws s.clients = some c)
    (hrole : c.role = Role.broadcaster)
    (hf : c.flat_id = some F) (hF : F ≠ "") :
    lookupA F (presenceClose s ws).stations = none ∧
    (∀ st0, lookupA F s.stations = some st0 →
      ∀ sock, sock ∈ st0.listeners →
        ∀ c', lookupA sock (presenceClose s ws).clients = some c' →
          c'.role = Role.idle ∧ c'.listeningTo = none) ∧
    (∀ w' c', lookupA w' (presenceClose s ws).clients = some c' →
      c'.listeningTo ≠ some F) := by
  have hs := reachable_listenConsistent hreach
  have hfk : flatKey c = F := by simp [flatKey, hf]
  have hb : c.role = .broadcaster ∧ flatKey c ≠ "" := by
    rw [hfk]
    exact ⟨hrole, hF⟩
  cases hstb : lookupA (flatKey c) (stripSelf s ws c) with
  | some st =>
    refine ⟨?_, ?_, ?_⟩
    · simp only [pc_bcast_some s ws c st hc hb.1 hb.2 hstb]
      rw [lookupA_eraseA, hfk, if_pos rfl]
    · intro st0 hst0 sock hsock c' hc'
      simp only [pc_bcast_some s ws c st hc hb.1 hb.2 hstb] at hc'
      rw [lookupA_eraseA] at hc'
      by_cases hws : ws = sock
      · rw [if_pos hws] at hc'
        exact absurd hc' (by simp)
      · rw [if_neg hws] at hc'
        obtain ⟨st1, hst1, _, hkeep⟩ :=
          stripSelf_lookup_some s ws c F st0 hst0
        rw [hfk] at hstb
        rw [hstb] at hst1
        obtain rfl : st = st1 := by simpa using hst1
        have hmem : sock ∈ st.listeners :=
          hkeep sock hsock (fun h => hws h.symm)
        rw [lookupA_resetListeners, if_pos hmem] at hc'
        cases hlc : lookupA sock s.clients with
        | none =>
          rw [hlc] at hc'
          exact absurd hc' (by simp)
        | some a =>
          rw [hlc] at hc'
          obtain rfl : resetClient a = c' := by simpa using hc'
          exact ⟨rfl, rfl⟩
    · intro w' c' hc' hlt
      simp only [pc_bcast_some s ws c st hc hb.1 hb.2 hstb] at hc'
      rw [lookupA_eraseA] at hc'
      by_cases hws : ws = w'
      · rw [if_pos hws] at hc'
        exact absurd hc' (by simp)
      · rw [if_neg hws] at hc'
        rw [lookupA_resetListeners] at hc'
        by_cases hmem : w' ∈ st.listeners
        · rw [if_pos hmem] at hc'
          cases hlc : lookupA w' s.clients with
          | none =>
            rw [hlc] at hc'
            exact absurd hc' (by simp)
          | some a =>
            rw [hlc] at hc'
            obtain rfl : resetClient a = c' := by simpa using hc'
            simp [resetClient] at hlt
        · rw [if_neg hmem] at hc'
          obtain ⟨st', hst', hmem'⟩ := hs w' c' hc' F hlt hF
          obtain ⟨st1, hst1, _, hkeep⟩ :=
            stripSelf_lookup_some s ws c F st' hst'
          rw [hfk] at hstb
          rw [hstb] at hst1
          obtain rfl : st = st1 := by simpa using hst1
          exact hmem (hkeep w' hmem' (fun h => hws h.symm))
  | none =>
    refine ⟨?_, ?_, ?_⟩
    · simp only [pc_bcast_none s ws c hc hb.1 hb.2 hstb]
      rw [lookupA_eraseA, hfk, if_pos rfl]
    · intro st0 hst0 sock hsock c' hc'
      obtain ⟨st1, hst1, _, _⟩ := stripSelf_lookup_some s ws c F st0 hst0
      rw [hfk] at hstb
      rw [hstb] at hst1
      exact absurd hst1 (by simp)
    · intro w' c' hc' hlt
      simp only [pc_bcast_none s ws c hc hb.1 hb.2 hstb] at hc'
      rw [lookupA_eraseA] at hc'
      by_cases hws : ws = w'
      · rw [if_pos hws] at hc'
        exact absurd hc' (by simp)
      · rw [if_neg hws] at hc'
        obtain ⟨st', hst', hmem'⟩ := hs w' c' hc' F hlt hF
        obtain ⟨st1, hst1, _, _⟩ := stripSelf_lookup_some s ws c F st' hst'
        rw [hfk] at hstb
        rw [hstb] at hst1
        exact absurd hst1 (by simp)

/-- The events behind the C3 witness: 0 broadcasts as G1, 1 listens. -/
def exC3Events : List PEvent :=
  [.connect 0 "ip0" 1, .message 0 (.identify "g1") 1,
   .message 0 .broadcastStart 2, .connect 1 "ip1" 3,
   .message 1 (.identify "h2") 3, .message 1 (.listenStart "g1") 4]

def exC3 : LiveState := runP initLive exC3Events

theorem broadcaster_close_cleanup_witness :
    lookupA "G1" (presenceClose exC3 0).stations = none ∧
    (∀ w' c', lookupA w' (presenceClose exC3 0).clients = some c' →
      c'.listeningTo ≠ some "G1") := by
  have h := broadcaster_close_cleanup exC3 (reachable_runP exC3Events) 0
    ⟨some "G1", "ip0", .broadcaster, none, 1⟩ "G1" (by decide) rfl rfl
    (by decide)
  exact ⟨h.1, h.2.2⟩

/-! ### Claim C7: broadcast:status does not clamp micLevel -/

/-- The events behind the C7 counterexample: one live station F1. -/
def exC7Events : List PEvent :=
  [.connect 0 "ip0" 1, .message 0 (.identify "f1") 1,
   .message 0 .broadcastStart 2]

def exC7 : LiveState := runP initLive exC7Events

/-- C7 fails on the code: `st.audio.micLevel = Number(msg.micLevel || 0)`
neither clamps nor avoids NaN. A numeric micLevel of 5 is stored as 5
(outside [0,1]); the non-numeric truthy string "abc" is stored as NaN
(`none` in the embedding), never as 0. -/
theorem broadcast_status_micLevel_unclamped :
    Reachable exC7 ∧
    (lookupA "F1" ((presenceMessage exC7 0
        (.broadcastStatus .null .null .null .null (.num 5)) 3).1.stations)).map
      (fun st => st.audio.micLevel) = some (some 5) ∧
    ¬ ((5 : ℚ) ≤ 1) ∧
    (lookupA "F1" ((presenceMessage exC7 0
        (.broadcastStatus .null .null .null .null (.str "abc")) 3).1.stations)).map
      (fun st => st.audio.micLevel) = some none :=
  ⟨reachable_runP exC7Events, by decide, by decide, by decide⟩

/-! ### The signaling plane (server.js lines 453-592) -/

/-- Signal role, `sc.role` in server.js. -/
inductive SRole
  | unknown
  | broadcaster
  | listener
deriving DecidableEq

/-- A signaling client record of server.js (`signalClients` values); `id` is
the server-assigned 16-hex-char handle. -/
structure SignalClient where
  id : String
  flat_id : Option String
  ip : String
  role : SRole
  listeningTo : Option String
deriving DecidableEq

/-- The signaling-plane state: `signalClients` and `stationBroadcasterWS`
(the SignalBroadcasterIndex). -/
structure SignalState where
  signalClients : List (ConnId × SignalClient)
  stationBroadcasterWS : List (String × ConnId)
deriving DecidableEq

/-- Signaling frames needed by the claims. The webrtc relay frames
(`webrtc:offer`, `webrtc:answer`, `webrtc:ice`) mutate neither map — they
only forward — and are not modeled. -/
inductive SFrame
  | identify (flat_id : String) (role : String)
  | listenJoin (targetFlat : String)
  | listenLeave
deriving DecidableEq

/-- The identify mutations: canonicalize the flat id and set the role
(`msg.role === "broadcaster" ? "broadcaster" : "listener"`). -/
def setIdent (fid roleStr : String) (sc : SignalClient) : SignalClient :=
  {sc with flat_id := some (normalizeFlatId fid),
           role := if roleStr = "broadcaster" then .broadcaster else .listener}

/-- The listen:join mutations, applied before any validation. -/
def joinTarget (target : String) (sc : SignalClient) : SignalClient :=
  {sc with role := .listener, listeningTo := some target}

/-- `sc.listeningTo = null` in listen:leave. -/
def clearListen (sc : SignalClient) : SignalClient :=
  {sc with listeningTo := none}

/-- The signaling message handler of server.js (lines 490-576) for the
frames above. It reads the presence-plane station registry (`stations`)
but never writes it. -/
def signalMessage (stations : List (String × Station)) (st : SignalState)
    (ws : ConnId) (f : SFrame) : SignalState × List SEffect :=
  match lookupA ws st.signalClients with
  | none => (st, [])
  | some sc =>
    match f with
    | .identify fid roleStr =>
        let clients1 := updateA ws (setIdent fid roleStr) st.signalClients
        if roleStr = "broadcaster" then
          match lookupA (normalizeFlatId fid) st.stationBroadcasterWS with
          | none =>
              (⟨clients1,
                insertA (normalizeFlatId fid) ws st.stationBroadcasterWS⟩, [])
          | some _ =>
              (⟨clients1, st.stationBroadcasterWS⟩,
               [.send ws (.broadcastDenied "ALREADY_BROADCASTING"),
                .closeConn ws 1008])
        else (⟨clients1, st.stationBroadcasterWS⟩, [])
    | .listenJoin tf =>
        let target := normalizeFlatId tf
        let st1 : SignalState :=
          ⟨updateA ws (joinTarget target) st.signalClients,
           st.stationBroadcasterWS⟩
        match lookupA target stations with
        | none => (st1, [.send ws (.listenError "STATION_OFFLINE")])
        | some _ =>
            match lookupA target st.stationBroadcasterWS with
            | none =>
                (st1, [.send ws (.listenError "BROADCASTER_SIGNAL_NOT_READY")])
            | some bws =>
                (st1, [.send bws (.listenerJoin sc.id),
                       .send ws (.listenOk target)])
    | .listenLeave =>
        if sc.listeningTo.getD "" = "" then (st, [])
        else
          let st1 : SignalState :=
            ⟨updateA ws clearListen st.signalClients,
             st.stationBroadcasterWS⟩
          match lookupA (sc.listeningTo.getD "") st.stationBroadcasterWS with
          | some bws => (st1, [.send bws (.listenerLeave sc.id)])
          | none => (st1, [])

/-- The signaling close handler of server.js (lines 578-591): the index
entry is removed only when it still points to this very connection. -/
def signalClose (st : SignalState) (ws : ConnId) : SignalState :=
  match lookupA ws st.signalClients with
  | none => st
  | some c =>
    let idx1 :=
      if c.role = .broadcaster ∧ c.flat_id.getD "" ≠ "" then
        match lookupA (c.flat_id.getD "") st.stationBroadcasterWS with
        | some w =>
            if w = ws then eraseA (c.flat_id.getD "") st.stationBroadcasterWS
            else st.stationBroadcasterWS
        | none => st.stationBroadcasterWS
      else st.stationBroadcasterWS
    ⟨eraseA ws st.signalClients, idx1⟩

/-! ### Claim C6: signaling identify with role=broadcaster -/

/-- C6: on the signaling channel, an identify frame with role=broadcaster
either registers this connection in the SignalBroadcasterIndex (when the
canonicalized flat_id has no entry, with no reply), or — when an entry
exists — replies broadcast:denied/ALREADY_BROADCASTING, closes the
connection with code 1008, and leaves the index unchanged, still mapping
the flat_id to the originally registered connection. -/
theorem signal_identify_broadcaster_unique
    (stations : List (String × Station)) (st : SignalState) (ws : ConnId)
    (sc : SignalClient) (fid : String)
    (hws : lookupA ws st.signalClients = some sc) :
    (lookupA (normalizeFlatId fid) st.stationBroadcasterWS = none →
      lookupA (normalizeFlatId fid)
        (signalMessage stations st ws
          (.identify fid "broadcaster")).1.stationBroadcasterWS = some ws ∧
      (signalMessage stations st ws (.identify fid "broadcaster")).2 = []) ∧
    (∀ bws, lookupA (normalizeFlatId fid) st.stationBroadcasterWS = some bws →
      (signalMessage stations st ws
        (.identify fid "broadcaster")).1.stationBroadcasterWS =
          st.stationBroadcasterWS ∧
      lookupA (normalizeFlatId fid)
        (signalMessage stations st ws
          (.identify fid "broadcaster")).1.stationBroadcasterWS = some bws ∧
      (signalMessage stations st ws (.identify fid "broadcaster")).2 =
        [.send ws (.broadcastDenied "ALREADY_BROADCASTING"),
         .closeConn ws 1008]) := by
  constructor
  · intro hnone
    simp [signalMessage, hws, hnone, lookupA_insertA]
  · intro bws hsome
    simp [signalMessage, hws, hsome]

def exC6Free : SignalState := ⟨[(5, ⟨"abcd", none, "ip5", .unknown, none⟩)], []⟩

def exC6Busy : SignalState :=
  ⟨[(5, ⟨"abcd", none, "ip5", .unknown, none⟩)], [("F1", 7)]⟩

theorem signal_identify_broadcaster_unique_witness :
    lookupA "F1" (signalMessage [] exC6Free 5
      (.identify "f1" "broadcaster")).1.stationBroadcasterWS = some 5 ∧
    (signalMessage [] exC6Busy 5 (.identify "f1" "broadcaster")).2 =
      [.send 5 (.broadcastDenied "ALREADY_BROADCASTING"),
       .closeConn 5 1008] := by
  refine ⟨?_, ?_⟩
  · exact ((signal_identify_broadcaster_unique [] exC6Free 5
      ⟨"abcd", none, "ip5", .unknown, none⟩ "f1" (by decide)).1 (by decide)).1
  · exact ((signal_identify_broadcaster_unique [] exC6Busy 5
      ⟨"abcd", none, "ip5", .unknown, none⟩ "f1" (by decide)).2 7
        (by decide)).2.2

/-! ### Claim C10: listen:join mutates before validation; leave then fires -/

/-- C10: every signaling listen:join sets the sender's role to listener and
its listeningTo to the canonicalized target before any validation — the
client record is updated even when the reply is a listen:error
(STATION_OFFLINE shown here) — the broadcaster index is untouched, and a
subsequent listen:leave then sends listener:leave to whatever connection
the index maps the target flat to, even though the join never succeeded. -/
theorem listen_join_sets_state_before_validation
    (stations : List (String × Station)) (st : SignalState) (ws : ConnId)
    (sc : SignalClient) (tf : String)
    (hws : lookupA ws st.signalClients = some sc) :
    (lookupA ws
        (signalMessage stations st ws (.listenJoin tf)).1.signalClients =
      some (joinTarget (normalizeFlatId tf) sc)) ∧
    (lookupA (normalizeFlatId tf) stations = none →
      (signalMessage stations st ws (.listenJoin tf)).2 =
        [.send ws (.listenError "STATION_OFFLINE")]) ∧
    ((signalMessage stations st ws (.listenJoin tf)).1.stationBroadcasterWS =
      st.stationBroadcasterWS) ∧
    (normalizeFlatId tf ≠ "" → ∀ bws,
      lookupA (normalizeFlatId tf) st.stationBroadcasterWS = some bws →
      (signalMessage stations
          (signalMessage stations st ws (.listenJoin tf)).1 ws
          .listenLeave).2 =
        [.send bws (.listenerLeave sc.id)]) := by
  have hjoin : (signalMessage stations st ws (.listenJoin tf)).1 =
      ⟨updateA ws (joinTarget (normalizeFlatId tf)) st.signalClients,
       st.stationBroadcasterWS⟩ := by
    cases h1 : lookupA (normalizeFlatId tf) stations with
    | none => simp [signalMessage, hws, h1]
    | some stT =>
      cases h2 : lookupA (normalizeFlatId tf) st.stationBroadcasterWS with
      | none => simp [signalMessage, hws, h1, h2]
      | some bws => simp [signalMessage, hws, h1, h2]
  have hlk2 : lookupA ws
      (updateA ws (joinTarget (normalizeFlatId tf)) st.signalClients) =
      some (joinTarget (normalizeFlatId tf) sc) := by
    rw [lookupA_updateA, if_pos rfl, hws]
    rfl
  refine ⟨?_, ?_, ?_, ?_⟩
  · rw [hjoin]
    exact hlk2
  · intro hoff
    simp [signalMessage, hws, hoff]
  · rw [hjoin]
  · intro hT bws hbw
    rw [hjoin]
    simp [signalMessage, hlk2, joinTarget, hT, hbw]

/-- The C10 witness state: the presence registry is empty (station G1 is
offline) yet the signal index already maps G1 to connection 9. -/
def exC10 : SignalState :=
  ⟨[(3, ⟨"beef", none, "ip3", .listener, none⟩)], [("G1", 9)]⟩

theorem listen_join_sets_state_before_validation_witness :
    (signalMessage [] exC10 3 (.listenJoin "g1")).2 =
      [.send 3 (.listenError "STATION_OFFLINE")] ∧
    (signalMessage [] (signalMessage [] exC10 3 (.listenJoin "g1")).1 3
        .listenLeave).2 = [.send 9 (.listenerLeave "beef")] := by
  have h := listen_join_sets_state_before_validation [] exC10 3
    ⟨"beef", none, "ip3", .listener, none⟩ "g1" (by decide)
  exact ⟨h.2.1 (by decide), h.2.2.2 (by decide) 9 (by decide)⟩

/-! ### Claim C8: the public station list (buildPublicStations, server.js) -/

/-- One element of the public station list built by `buildPublicStations`
(server.js lines 114-127): `{id, name, live, listeners, startedAt}`. The
type carries no IP and no per-listener detail. -/
structure PublicStation where
  id : String
  name : String
  live : Bool
  listeners : Nat
  startedAt : Nat
deriving DecidableEq

/-- The object pushed per registry entry: id and name are the flat_id, live
is true, listeners is the size of the listener set (the lists are
duplicate-free, so length is the JS `Set.size`), startedAt copied. -/
def stationView (p : String × Station) : PublicStation :=
  ⟨p.1, p.1, true, p.2.listeners.length, p.2.startedAt⟩

/-- The comparator `(a, b) => String(a.id).localeCompare(String(b.id))`: on
the uppercase alphanumeric flat ids used as keys it is the lexicographic
order on the id. -/
def publicLe (a b : PublicStation) : Prop := a.id ≤ b.id

instance : DecidableRel publicLe := fun a b =>
  inferInstanceAs (Decidable (a.id ≤ b.id))

instance : IsTotal PublicStation publicLe := ⟨fun a b => le_total a.id b.id⟩

instance : IsTrans PublicStation publicLe :=
  ⟨fun _ _ _ h1 h2 => le_trans h1 h2⟩

/-- `buildPublicStations` of server.js: push one view object per station,
then sort in place by id. -/
def buildPublicStations (stations : List (String × Station)) :
    List PublicStation :=
  List.insertionSort publicLe (stations.map stationView)

/-- C8: for every station registry, the public list is a permutation of one
view element per station — so exactly one element per entry, each of the
form `{id = flat_id, name = flat_id, live = true, listeners = |listener
set|, startedAt = started_at}` — sorted ascending by id; every element
comes from a registry entry and carries only those five fields (the
`PublicStation` type has no IP and no per-listener data). -/
theorem buildPublicStations_spec (stations : List (String × Station)) :
    (buildPublicStations stations).Perm (stations.map stationView) ∧
    (buildPublicStations stations).Sorted publicLe ∧
    (buildPublicStations stations).length = stations.length ∧
    (∀ p ∈ buildPublicStations stations, ∃ q ∈ stations,
      p.id = q.1 ∧ p.name = q.1 ∧ p.live = true ∧
      p.listeners = q.2.listeners.length ∧ p.startedAt = q.2.startedAt) ∧
    (∀ q ∈ stations, stationView q ∈ buildPublicStations stations) := by
  have hperm : (buildPublicStations stations).Perm
      (stations.map stationView) :=
    List.perm_insertionSort publicLe (stations.map stationView)
  refine ⟨hperm, List.sorted_insertionSort publicLe _, ?_, ?_, ?_⟩
  · rw [hperm.length_eq, List.length_map]
  · intro p hp
    have hp' : p ∈ stations.map stationView := hperm.mem_iff.mp hp
    obtain ⟨q, hq, rfl⟩ := List.mem_map.mp hp'
    exact ⟨q, hq, rfl, rfl, rfl, rfl, rfl⟩
  · intro q hq
    exact hperm.mem_iff.mpr (List.mem_map_of_mem stationView hq)

def exC8 : List (String × Station) :=
  [("B2", ⟨"ip1", 7, [4, 9], defaultAudio⟩),
   ("A1", ⟨"ip0", 5, [2], defaultAudio⟩)]

theorem buildPublicStations_spec_witness :
    (buildPublicStations exC8).Sorted publicLe ∧
    stationView ("A1", ⟨"ip0", 5, [2], defaultAudio⟩) ∈
      buildPublicStations exC8 := by
  have h := buildPublicStations_spec exC8
  exact ⟨h.2.1, h.2.2.2.2 ("A1", ⟨"ip0", 5, [2], defaultAudio⟩)
    (by decide)⟩

/-! ### The identity store (user_db_pg.js over the db_pg.js schema) -/

/-- A `flat_requests` row (db_pg.js migration). -/
structure RequestRow where
  id : Nat
  flat_id : String
  name : String
  note : String
  status : String
  created_at : Nat
  updated_at : Nat
deriving DecidableEq

/-- A `flats` row. -/
structure FlatRow where
  flat_id : String
  status : String
  pin_hash : Option String
  password_hash : Option String
  strike_count : Nat
  ban_until : Option Nat
  requires_admin_revoke : Bool
  created_at : Nat
  updated_at : Nat
  last_login_at : Option Nat
deriving DecidableEq

/-- A `setup_codes` row. -/
structure SetupCodeRow where
  id : Nat
  flat_id : String
  code_hash : String
  expires_at : Nat
  used_at : Option Nat
  created_at : Nat
deriving DecidableEq

/-- The relational store; `nextRequestId` models the BIGSERIAL sequence of
`flat_requests.id`. -/
structure Db where
  flat_requests : List RequestRow
  flats : List FlatRow
  setup_codes : List SetupCodeRow
  nextRequestId : Nat
deriving DecidableEq

/-- bcrypt modeled as a deterministic injective hash: `compare(p, h)` holds
exactly when `h` was produced from `p`. The claims depend only on
match/mismatch, not on the hash scheme. -/
def bcryptHash (p : String) : String := "bcrypt$" ++ p

def bcryptCompare (p h : String) : Bool := decide (h = bcryptHash p)

/-- `ORDER BY created_at DESC`: insert before the first strictly-smaller
key. -/
def insertDesc (key : α → Nat) (x : α) : List α → List α
  | [] => [x]
  | y :: ys => if key y < key x then x :: y :: ys else y :: insertDesc key x ys

def sortByKeyDesc (key : α → Nat) : List α → List α
  | [] => []
  | x :: xs => insertDesc key x (sortByKeyDesc key xs)

theorem mem_insertDesc (key : α → Nat) (x a : α) (l : List α) :
    a ∈ insertDesc key x l ↔ a = x ∨ a ∈ l := by
  induction l with
  | nil => simp [insertDesc]
  | cons y ys ih =>
    by_cases h : key y < key x
    · simp [insertDesc, h, List.mem_cons]
    · simp only [insertDesc, if_neg h, List.mem_cons, ih]
      tauto

theorem mem_sortByKeyDesc (key : α → Nat) (a : α) (l : List α) :
    a ∈ sortByKeyDesc key l ↔ a ∈ l := by
  induction l with
  | nil => simp [sortByKeyDesc]
  | cons x xs ih =>
    simp [sortByKeyDesc, mem_insertDesc, ih]

/-- The regex test `/^\d{4}$/.test(String(pin4))`. -/
def isPin4 (s : String) : Bool :=
  decide (s.length = 4) && s.data.all Char.isDigit

/-- `SELECT id, status FROM flat_requests WHERE flat_id = $1 AND
status = 'PENDING' ORDER BY created_at DESC LIMIT 1`. -/
def pendingFor (db : Db) (fid : String) : Option RequestRow :=
  (sortByKeyDesc (fun r => r.created_at)
    (db.flat_requests.filter
      (fun r => decide (r.flat_id = fid ∧ r.status = "PENDING")))).head?

/-- The outcome of createAccessRequest. -/
inductive ReqResult
  | err (error : String)
  | okReq (id : Nat) (status : String) (reused : Bool)
deriving DecidableEq

/-- `createAccessRequest` of user_db_pg.js (lines 7-33). `now` is
`Date.now()`; the insert appends a PENDING row with empty note and equal
created/updated timestamps and returns the fresh id. -/
def createAccessRequest (db : Db) (now : Nat) (flat_id name : String) :
    Db × ReqResult :=
  let fid := normalizeFlatId flat_id
  let nm := jsTrim name
  if fid = "" ∨ nm = "" then (db, .err "MISSING_FIELDS")
  else
    match pendingFor db fid with
    | some row => (db, .okReq row.id row.status true)
    | none =>
        let row : RequestRow :=
          ⟨db.nextRequestId, fid, nm, "", "PENDING", now, now⟩
        (⟨db.flat_requests ++ [row], db.flats, db.setup_codes,
          db.nextRequestId + 1⟩, .okReq db.nextRequestId "PENDING" false)

/-- `SELECT * FROM flats WHERE flat_id = $1` (primary key: first match). -/
def findFlat (db : Db) (fid : String) : Option FlatRow :=
  db.flats.find? (fun f => decide (f.flat_id = fid))

/-- `SELECT ... FROM setup_codes WHERE flat_id = $1 ORDER BY created_at
DESC LIMIT 5`. -/
def recentCodes (db : Db) (fid : String) : List SetupCodeRow :=
  (sortByKeyDesc (fun r => r.created_at)
    (db.setup_codes.filter (fun r => decide (r.flat_id = fid)))).take 5

/-- `rows.find((r) => !r.used_at && Number(r.expires_at) > now)`. A used_at
of 0 would be falsy in JS but the code only ever writes `Date.now()`. -/
def findValidCode (rows : List SetupCodeRow) (now : Nat) :
    Option SetupCodeRow :=
  rows.find? (fun r => decide (r.used_at = none ∧ now < r.expires_at))

/-- The outcome of setupPinWithCode. -/
inductive SetupResult
  | err (error : String)
  | okSetup
deriving DecidableEq

/-- `password ? await bcrypt.hash(String(password), 10) : null`. -/
def optPasswordHash (password : Option String) : Option String :=
  match password with
  | some p => if p = "" then none else some (bcryptHash p)
  | none => none

/-- The credential write of the transaction:
`UPDATE flats SET pin_hash=$1, password_hash=$2, updated_at=$3`. -/
def setCreds (pin_hash : String) (password_hash : Option String) (now : Nat)
    (f : FlatRow) : FlatRow :=
  {f with pin_hash := some pin_hash, password_hash := password_hash,
          updated_at := now}

/-- `UPDATE setup_codes SET used_at=$1 WHERE id=$2`. -/
def markUsed (codeId : Nat) (now : Nat) (r : SetupCodeRow) : SetupCodeRow :=
  if r.id = codeId then {r with used_at := some now} else r

/-- The transaction of setupPinWithCode: write pin/password hashes to the
flat row and mark the chosen code used, atomically. -/
def applySetup (db : Db) (fid : String) (pin_hash : String)
    (password_hash : Option String) (codeId : Nat) (now : Nat) : Db :=
  ⟨db.flat_requests,
   db.flats.map (fun f =>
     if f.flat_id = fid then setCreds pin_hash password_hash now f else f),
   db.setup_codes.map (markUsed codeId now),
   db.nextRequestId⟩

/-- `setupPinWithCode` of user_db_pg.js (lines 35-82). -/
def setupPinWithCode (db : Db) (now : Nat) (flat_id code pin4 : String)
    (password : Option String) : Db × SetupResult :=
  let fid := normalizeFlatId flat_id
  if fid = "" ∨ code = "" ∨ pin4 = "" then (db, .err "MISSING_FIELDS")
  else if ¬ isPin4 pin4 then (db, .err "PIN_MUST_BE_4_DIGITS")
  else
    match findFlat db fid with
    | none => (db, .err "FLAT_NOT_FOUND")
    | some flat =>
      if flat.status ≠ "ACTIVE" then (db, .err "FLAT_DISABLED")
      else
        match findValidCode (recentCodes db fid) now with
        | none => (db, .err "NO_VALID_CODE")
        | some v =>
          if bcryptCompare (jsTrim code) v.code_hash = false then
            (db, .err "INVALID_CODE")
          else
            (applySetup db fid (bcryptHash pin4) (optPasswordHash password)
              v.id now, .okSetup)

/-- The outcome of loginFlat; BANNED carries `ban_until`. -/
inductive LoginResult
  | okLogin (flat_id : String)
  | err (error : String) (ban_until : Option Nat)
deriving DecidableEq

/-- `flat.ban_until && Number(flat.ban_until) > now` (a 0 would be falsy in
JS, and 0 > now is false anyway). -/
def banActive (f : FlatRow) (now : Nat) : Bool :=
  match f.ban_until with
  | some b => decide (now < b)
  | none => false

/-- JS truthiness of the optional password argument (absent and "" falsy). -/
def jsTruthyOptStr (o : Option String) : Bool :=
  match o with
  | some s => decide (s ≠ "")
  | none => false

/-- `UPDATE flats SET last_login_at=$1, updated_at=$1 WHERE flat_id=$2`. -/
def touchLogin (db : Db) (fid : String) (now : Nat) : Db :=
  ⟨db.flat_requests,
   db.flats.map (fun f =>
     if f.flat_id = fid then
       {f with last_login_at := some now, updated_at := now}
     else f),
   db.setup_codes, db.nextRequestId⟩

/-- `loginFlat` of user_db_pg.js (lines 84-109). A pin_hash of "" would be
falsy in JS; the code only stores real bcrypt strings. -/
def loginFlat (db : Db) (now : Nat) (flat_id pin4 : String)
    (password : Option String) : Db × LoginResult :=
  let fid := normalizeFlatId flat_id
  match findFlat db fid with
  | none => (db, .err "FLAT_NOT_FOUND" none)
  | some flat =>
    if flat.status ≠ "ACTIVE" then (db, .err "FLAT_DISABLED" none)
    else if banActive flat now then (db, .err "BANNED" flat.ban_until)
    else if flat.requires_admin_revoke then
      (db, .err "ADMIN_REVOKE_REQUIRED" none)
    else
      match flat.pin_hash with
      | none => (db, .err "PIN_NOT_SET" none)
      | some ph =>
        if ¬ isPin4 pin4 then (db, .err "INVALID_PIN" none)
        else if bcryptCompare pin4 ph = false then
          (db, .err "INVALID_CREDENTIALS" none)
        else
          match flat.password_hash with
          | none => (touchLogin db fid now, .okLogin fid)
          | some pwh =>
            if jsTruthyOptStr password = false then
              (db, .err "PASSWORD_REQUIRED" none)
            else if bcryptCompare (password.getD "") pwh = false then
              (db, .err "INVALID_CREDENTIALS" none)
            else (touchLogin db fid now, .okLogin fid)

/-! ### Claim C9: createAccessRequest -/

/-- C9: with empty (after canonicalization/trim) flat_id or name the call
returns MISSING_FIELDS and writes nothing; with a PENDING request already
present it returns that row's id and status (necessarily PENDING) with
reused=true and writes nothing; otherwise it appends exactly one new
PENDING row with empty note and created_at = updated_at = now, bumps the id
sequence, and returns reused=false with the fresh id. -/
theorem createAccessRequest_spec (db : Db) (now : Nat)
    (flat_id name : String) :
    (normalizeFlatId flat_id = "" ∨ jsTrim name = "" →
      createAccessRequest db now flat_id name =
        (db, .err "MISSING_FIELDS")) ∧
    (normalizeFlatId flat_id ≠ "" → jsTrim name ≠ "" →
      ∀ row, pendingFor db (normalizeFlatId flat_id) = some row →
        createAccessRequest db now flat_id name =
          (db, .okReq row.id row.status true) ∧ row.status = "PENDING") ∧
    (normalizeFlatId flat_id ≠ "" → jsTrim name ≠ "" →
      pendingFor db (normalizeFlatId flat_id) = none →
      createAccessRequest db now flat_id name =
        (⟨db.flat_requests ++
            [⟨db.nextRequestId, normalizeFlatId flat_id, jsTrim name, "",
              "PENDING", now, now⟩],
          db.flats, db.setup_codes, db.nextRequestId + 1⟩,
         .okReq db.nextRequestId "PENDING" false)) := by
  refine ⟨?_, ?_, ?_⟩
  · intro h
    simp [createAccessRequest, h]
  · intro h1 h2 row hrow
    refine ⟨by simp [createAccessRequest, h1, h2, hrow], ?_⟩
    have hmem : row ∈ sortByKeyDesc (fun r => r.created_at)
        (db.flat_requests.filter (fun r =>
          decide (r.flat_id = normalizeFlatId flat_id ∧
            r.status = "PENDING"))) :=
      List.mem_of_mem_head? hrow
    rw [mem_sortByKeyDesc] at hmem
    have hp := (List.mem_filter.mp hmem).2
    exact (of_decide_eq_true hp).2
  · intro h1 h2 hnone
    simp [createAccessRequest, h1, h2, hnone]

def exC9Db : Db := ⟨[], [], [], 1⟩

theorem createAccessRequest_spec_witness :
    createAccessRequest exC9Db 42 "a1" "Ava" =
      (⟨exC9Db.flat_requests ++
          [⟨exC9Db.nextRequestId, normalizeFlatId "a1", jsTrim "Ava", "",
            "PENDING", 42, 42⟩],
        exC9Db.flats, exC9Db.setup_codes, exC9Db.nextRequestId + 1⟩,
       .okReq exC9Db.nextRequestId "PENDING" false) :=
  (createAccessRequest_spec exC9Db 42 "a1" "Ava").2.2 (by decide) (by decide)
    (by decide)

/-! ### Claim C5: loginFlat check order -/

def exC5Flat : FlatRow :=
  ⟨"A1", "ACTIVE", some (bcryptHash "1234"), some (bcryptHash "pw"), 0,
   none, false, 0, 0, none⟩

def exC5Db : Db := ⟨[], [exC5Flat], [], 1⟩

/-- C5 as stated is false on the code: for a flat that exists, is ACTIVE,
unbanned, without admin revoke, with pin_hash and password_hash set,
calling loginFlat with the well-formed but non-matching pin "9999" and no
password returns INVALID_CREDENTIALS, not PASSWORD_REQUIRED — the pin
comparison runs before the password_hash check. -/
theorem login_wrong_pin_not_password_required :
    (loginFlat exC5Db 100 "A1" "9999" none).2 =
      .err "INVALID_CREDENTIALS" none ∧
    LoginResult.err "INVALID_CREDENTIALS" none ≠
      LoginResult.err "PASSWORD_REQUIRED" none :=
  ⟨by decide, by decide⟩

/-- C5 (amended): the checks run in the order FLAT_NOT_FOUND,
FLAT_DISABLED, BANNED, ADMIN_REVOKE_REQUIRED, PIN_NOT_SET, INVALID_PIN,
INVALID_CREDENTIALS (pin mismatch), PASSWORD_REQUIRED, INVALID_CREDENTIALS
(password mismatch). For a flat passing every earlier check and storing a
password_hash, a call with well-formed pin4 and no password returns
PASSWORD_REQUIRED when the pin matches pin_hash and INVALID_CREDENTIALS
when it does not. -/
theorem loginFlat_password_check_after_pin
    (db : Db) (now : Nat) (F pin4 : String) (flat : FlatRow)
    (ph pwh : String)
    (hf : findFlat db (normalizeFlatId F) = some flat)
    (hactive : flat.status = "ACTIVE")
    (hban : banActive flat now = false)
    (hrev : flat.requires_admin_revoke = false)
    (hpin : flat.pin_hash = some ph)
    (hpw : flat.password_hash = some pwh)
    (hfmt : isPin4 pin4 = true) :
    (bcryptCompare pin4 ph = true →
      loginFlat db now F pin4 none = (db, .err "PASSWORD_REQUIRED" none)) ∧
    (bcryptCompare pin4 ph = false →
      loginFlat db now F pin4 none =
        (db, .err "INVALID_CREDENTIALS" none)) := by
  constructor
  · intro hcmp
    simp [loginFlat, hf, hactive, hban, hrev, hpin, hpw, hfmt, hcmp,
      jsTruthyOptStr]
  · intro hcmp
    simp [loginFlat, hf, hactive, hban, hrev, hpin, hfmt, hcmp]

theorem loginFlat_password_check_after_pin_witness :
    loginFlat exC5Db 100 "A1" "1234" none =
      (exC5Db, .err "PASSWORD_REQUIRED" none) :=
  (loginFlat_password_check_after_pin exC5Db 100 "A1" "1234" exC5Flat
    (bcryptHash "1234") (bcryptHash "pw") (by decide) rfl rfl rfl rfl rfl
    (by decide)).1 (by decide)

/-! ### Claim C4: setup codes are single-use -/

def exC4Flat : FlatRow :=
  ⟨"A1", "ACTIVE", none, none, 0, none, false, 0, 0, none⟩

def exC4Code : SetupCodeRow := ⟨1, "A1", bcryptHash "1234", 100, none, 10⟩

def exC4Db : Db := ⟨[], [exC4Flat], [exC4Code], 1⟩

def exC4Db2 : Db := (setupPinWithCode exC4Db 50 "a1" "1234" "5678" none).1

/-- C4 as stated is false on the code: after a successful setup consumed
the flat's only code, the same call again returns NO_VALID_CODE (the used
row is filtered out before any hash comparison), not INVALID_CODE. -/
theorem setup_second_use_not_invalid_code :
    (setupPinWithCode exC4Db 50 "a1" "1234" "5678" none).2 = .okSetup ∧
    (setupPinWithCode exC4Db2 60 "a1" "1234" "5678" none).2 =
      .err "NO_VALID_CODE" ∧
    SetupResult.err "NO_VALID_CODE" ≠ SetupResult.err "INVALID_CODE" :=
  ⟨by decide, by decide, by decide⟩

/-- `find?` by flat_id through a per-flat row update that preserves
flat_id. -/
theorem find_upd_flats (L : List FlatRow) (fid g : String)
    (upd : FlatRow → FlatRow)
    (hupd : ∀ f, (upd f).flat_id = f.flat_id) :
    (L.map (fun f => if f.flat_id = fid then upd f else f)).find?
        (fun f => decide (f.flat_id = g)) =
      (L.find? (fun f => decide (f.flat_id = g))).map
        (fun f => if f.flat_id = fid then upd f else f) := by
  induction L with
  | nil => rfl
  | cons f fs ih =>
    rw [List.map_cons]
    by_cases hg : f.flat_id = g
    · have hg2 : (if f.flat_id = fid then upd f else f).flat_id = g := by
        split
        · rw [hupd]
          exact hg
        · exact hg
      rw [List.find?_cons_of_pos _ (by simpa using hg2),
          List.find?_cons_of_pos _ (by simpa using hg)]
      rfl
    · have hg2 : (if f.flat_id = fid then upd f else f).flat_id ≠ g := by
        split
        · rw [hupd]
          exact hg
        · exact hg
      rw [List.find?_cons_of_neg _ (by simpa using hg2),
          List.find?_cons_of_neg _ (by simpa using hg), ih]

/-- C4 (amended): setup codes are single-use — a successful SetupPinWithCode
marks the consumed code row's used_at; a second call with the same
arguments then fails: with NO_VALID_CODE when no unused, unexpired code
remains among the flat's five most recent rows, and with INVALID_CODE when
such a row remains but its hash does not match the supplied code. -/
theorem setup_code_single_use
    (db db' : Db) (now now2 : Nat) (F code pin4 : String)
    (pw : Option String)
    (h1 : setupPinWithCode db now F code pin4 pw = (db', .okSetup)) :
    (∃ v, findValidCode (recentCodes db (normalizeFlatId F)) now = some v ∧
      ∃ r, r ∈ db'.setup_codes ∧ r.id = v.id ∧ r.used_at = some now) ∧
    (findValidCode (recentCodes db' (normalizeFlatId F)) now2 = none →
      setupPinWithCode db' now2 F code pin4 pw =
        (db', .err "NO_VALID_CODE")) ∧
    (∀ v2,
      findValidCode (recentCodes db' (normalizeFlatId F)) now2 = some v2 →
      bcryptCompare (jsTrim code) v2.code_hash = false →
      setupPinWithCode db' now2 F code pin4 pw =
        (db', .err "INVALID_CODE")) := by
  unfold setupPinWithCode at h1
  by_cases hg : normalizeFlatId F = "" ∨ code = "" ∨ pin4 = ""
  · simp [hg] at h1
  rw [if_neg hg] at h1
  by_cases hp : isPin4 pin4 = true
  swap
  · rw [if_pos (by simpa using hp)] at h1
    simp at h1
  rw [if_neg (by simp [hp])] at h1
  split at h1
  · simp at h1
  rename_i flat hf
  split at h1
  · simp at h1
  rename_i hstat0
  have hstat : flat.status = "ACTIVE" := not_not.mp hstat0
  split at h1
  · simp at h1
  rename_i v hv
  split at h1
  · simp at h1
  rename_i hcmp
  have hdb' : db' = applySetup db (normalizeFlatId F)
      (bcryptHash pin4) (optPasswordHash pw) v.id now := by
    have := congrArg Prod.fst h1
    simpa using this.symm
  have hf2 : db.flats.find? (fun f => decide (f.flat_id = normalizeFlatId F))
      = some flat := hf
  have hffid : flat.flat_id = normalizeFlatId F := by
    have hpf := List.find?_some hf2
    exact of_decide_eq_true hpf
  have hf' : findFlat db' (normalizeFlatId F) =
      some (setCreds (bcryptHash pin4) (optPasswordHash pw) now flat) := by
    rw [hdb']
    show (db.flats.map _).find? _ = _
    rw [find_upd_flats db.flats (normalizeFlatId F) (normalizeFlatId F)
      (setCreds (bcryptHash pin4) (optPasswordHash pw) now)
      (fun f => rfl)]
    rw [show db.flats.find? (fun f => decide (f.flat_id = normalizeFlatId F))
        = some flat from hf]
    simp [hffid]
  refine ⟨?_, ?_, ?_⟩
  · have hvmem : v ∈ recentCodes db (normalizeFlatId F) :=
      List.mem_of_find?_eq_some hv
    have hvdb : v ∈ db.setup_codes := by
      have h2 : v ∈ sortByKeyDesc (fun r => r.created_at)
          (db.setup_codes.filter (fun r =>
            decide (r.flat_id = normalizeFlatId F))) :=
        List.take_subset 5 _ hvmem
      rw [mem_sortByKeyDesc] at h2
      exact (List.mem_filter.mp h2).1
    refine ⟨v, hv, markUsed v.id now v, ?_, ?_, ?_⟩
    · rw [hdb']
      show _ ∈ db.setup_codes.map _
      exact List.mem_map.mpr ⟨v, hvdb, rfl⟩
    · simp [markUsed]
    · simp [markUsed]
  · intro hnone
    simp [setupPinWithCode, hg, hp, hf', hstat, hnone, setCreds]
  · intro v2 hv2 hcmp2
    simp [setupPinWithCode, hg, hp, hf', hstat, hv2, hcmp2, setCreds]

theorem setup_code_single_use_witness :
    setupPinWithCode exC4Db2 60 "a1" "1234" "5678" none =
      (exC4Db2, .err "NO_VALID_CODE") := by
  have h := setup_code_single_use exC4Db exC4Db2 50 60 "a1" "1234" "5678"
    none (by decide)
  exact h.2.1 (by decide)
